import Mathlib

/-!
Shallow embedding of the market-scan-and-ranking pipeline of
`coin_recommender.py` (Upbit KRW coin recommender).

Prices and rates are modelled as rationals (`ℚ`).  The external data
source (network) is modelled as a record of response functions; a fetch
fault is `none`.  Candle series are lists of trade prices in the order
the API returns them (newest first); the code reverses them to
oldest-first before any indicator computation, and the embedding does
the same.
-/

namespace Coin

/-- One item of the `/v1/ticker` snapshot response:
per-ticker signed 24h change rate and 24h accumulated traded value. -/
structure SnapshotItem where
  market : String
  signed_change_rate : ℚ
  acc_trade_price_24h : ℚ
deriving DecidableEq, Repr

/-- The external data source.  `tickersRaw = none` models a failure of
`/v1/market/all`; `quoteBatch` is the `/v1/ticker` response for one batch
of markets (`none` = fault, whole batch skipped); `dayCandles` and
`hourCandles` give the candle responses (newest-first trade prices,
`none` = fetch fault). -/
structure DataSource where
  tickersRaw : Option (List String)
  quoteBatch : List String → Option (List SnapshotItem)
  dayCandles : String → Option (List ℚ)
  hourCandles : String → Option (List ℚ)

/-- `get_krw_tickers`: all markets starting with "KRW-";
on a fetch fault the exception handler returns `[]`. -/
def get_krw_tickers (src : DataSource) : List String :=
  match src.tickersRaw with
  | none => []
  | some data => data.filter (fun m => m.startsWith "KRW-")

/-- `get_candles(ticker, 'days', 50)`: the daily candle trade prices,
`[]` on a fetch fault (the exception handler returns `[]`). -/
def get_day_candles (src : DataSource) (t : String) : List ℚ :=
  (src.dayCandles t).getD []

/-- `get_candles(ticker, 'minutes/60', 20)`: the hourly candle trade
prices, `[]` on a fetch fault. -/
def get_hour_candles (src : DataSource) (t : String) : List ℚ :=
  (src.hourCandles t).getD []

/-- `tickers[i:i+chunk_size]` for `i in range(0, len(tickers), chunk_size)`:
the list cut into consecutive chunks of size `n`. -/
def chunksOf (n : Nat) (l : List α) : List (List α) :=
  (List.range ((l.length + n - 1) / n)).map (fun i => (l.drop (i * n)).take n)

/-- The stage-1 volatility band test:
`-0.02 <= item['signed_change_rate'] <= 0.02`. -/
def stage1Keep (item : SnapshotItem) : Bool :=
  decide (-(2/100 : ℚ) ≤ item.signed_change_rate ∧
    item.signed_change_rate ≤ 2/100)

/-- The `valid_tickers` list built by the stage-1 loop of
`analyze_market`: chunks of 100 tickers, a faulting chunk contributes
nothing, and each response item is kept iff its signed change rate lies
in the band. -/
def stage1Items (src : DataSource) : List SnapshotItem :=
  ((chunksOf 100 (get_krw_tickers src)).map (fun chunk =>
    match src.quoteBatch chunk with
    | none => []
    | some data => data.filter stage1Keep)).flatten

/-- `series.ewm(span, adjust=False).mean()` seeded from the first value:
`ema[0] = p[0]`, `ema[t] = p[t]*k + ema[t-1]*(1-k)`. -/
def emaFrom (k : ℚ) (prices : List ℚ) : List ℚ :=
  match prices with
  | [] => []
  | p :: rest => rest.scanl (fun prev x => x * k + prev * (1 - k)) p

/-- `ewm(span=span, adjust=False)` has smoothing factor `k = 2/(span+1)`. -/
def emaSpan (span : Nat) (prices : List ℚ) : List ℚ :=
  emaFrom (2 / ((span : ℚ) + 1)) prices

/-- `calculate_macd`: MACD line = EMA12 - EMA26, signal = 9-period EMA of
the MACD line, histogram = MACD - signal. -/
def calculate_macd (prices : List ℚ) : List ℚ × List ℚ × List ℚ :=
  let macd_line := List.zipWith (· - ·) (emaSpan 12 prices) (emaSpan 26 prices)
  let signal_line := emaSpan 9 macd_line
  let macd_hist := List.zipWith (· - ·) macd_line signal_line
  (macd_line, signal_line, macd_hist)

/-- `l.iloc[-1]`: the last element (the guard makes the default dead). -/
def lastD (l : List ℚ) : ℚ := l.getD (l.length - 1) 0

/-- `l.iloc[-2]`: the second-to-last element. -/
def prevD (l : List ℚ) : ℚ := l.getD (l.length - 2) 0

/-- `check_macd_golden_cross`, applied to the fetched daily candle list
(newest first).  Returns `(qualifies, macd_strength)`. -/
def check_macd_golden_cross (candles : List ℚ) : Bool × ℚ :=
  if candles.isEmpty || candles.length < 30 then (false, 0)
  else
    let prices := candles.reverse
    let ms := calculate_macd prices
    let macd := ms.1
    let sig := ms.2.1
    let curr_macd := lastD macd
    let prev_macd := prevD macd
    let curr_sig := lastD sig
    let prev_sig := prevD sig
    if (prev_macd ≤ prev_sig ∧ curr_macd > curr_sig) ∨
       (curr_macd > curr_sig ∧ curr_macd > prev_macd) then
      (true, curr_macd - curr_sig)
    else (false, 0)

/-- `rolling(window=w).mean()`: position `i` is `none` before the window
is full, else the mean of the `w` entries ending at `i`. -/
def rollingMean (w : Nat) (ps : List ℚ) : List (Option ℚ) :=
  (List.range ps.length).map (fun i =>
    if i + 1 < w then none
    else some ((((ps.drop (i + 1 - w)).take w).sum) / (w : ℚ)))

/-- What the hourly block of `analyze_market` extracts when it does not
`continue`: the current price and the last two MA10 values. -/
structure HourlyData where
  price : ℚ
  currMa : ℚ
  prevMa : ℚ
deriving Repr

/-- The hourly MA10 block of `analyze_market`: guard
`not candles_1h or len(candles_1h) < 12`, reverse to oldest-first, take
the rolling-10 mean, reject if either of the last two values is NaN,
require the current value to strictly exceed the previous one. -/
def evalHourly (candles : List ℚ) : Option HourlyData :=
  if candles.isEmpty || candles.length < 12 then none
  else
    let ps := candles.reverse
    let ma := rollingMean 10 ps
    match ma.getD (ma.length - 1) none, ma.getD (ma.length - 2) none with
    | some curr_ma, some prev_ma =>
      if curr_ma > prev_ma then some ⟨lastD ps, curr_ma, prev_ma⟩ else none
    | _, _ => none

/-- A tiered take-profit entry: price plus an estimated-time label. -/
structure TPEntry where
  price : ℚ
  time : String
deriving DecidableEq, Repr

/-- The dict appended to `final_list` (before `normalized_slope` is
added in the second pass). -/
structure CandidateRaw where
  market : String
  current_price : ℚ
  ma10 : ℚ
  acc_trade_price_24h : ℚ
  slope : ℚ
  macd_strength : ℚ
  buy_price : ℚ
  tp1 : TPEntry
  tp2 : TPEntry
  tp3 : TPEntry
  sl : ℚ
deriving DecidableEq, Repr

/-- A fully annotated candidate (after the `normalized_slope` pass). -/
structure Candidate where
  market : String
  current_price : ℚ
  ma10 : ℚ
  acc_trade_price_24h : ℚ
  slope : ℚ
  macd_strength : ℚ
  buy_price : ℚ
  tp1 : TPEntry
  tp2 : TPEntry
  tp3 : TPEntry
  sl : ℚ
  normalized_slope : ℚ
deriving DecidableEq, Repr

/-- The dict literal built inside the hourly-pass branch of the loop. -/
def mkCandidateRaw (market : String) (acc strength : ℚ) (h : HourlyData) :
    CandidateRaw :=
  { market := market
    current_price := h.price
    ma10 := h.currMa
    acc_trade_price_24h := acc
    slope := h.currMa - h.prevMa
    macd_strength := strength
    buy_price := h.price
    tp1 := ⟨h.price * (1015/1000), "1~4시간 (단기)"⟩
    tp2 := ⟨h.price * (1035/1000), "4~12시간 (스윙)"⟩
    tp3 := ⟨h.price * (1070/1000), "1~3일 (장기)"⟩
    sl := h.price * (99/100) }

/-- One iteration of the stage-2 loop for one stage-1 survivor:
MACD check first (`continue` on failure), then the hourly MA10 block;
`none` means the ticker is dropped. -/
def evalTicker (src : DataSource) (info : SnapshotItem) : Option CandidateRaw :=
  let r := check_macd_golden_cross (get_day_candles src info.market)
  if r.1 = false then none
  else
    match evalHourly (get_hour_candles src info.market) with
    | none => none
    | some h => some (mkCandidateRaw info.market info.acc_trade_price_24h r.2 h)

/-- The second pass over `final_list`:
`item['normalized_slope'] = item['slope'] / item['ma10']`. -/
def annotate (c : CandidateRaw) : Candidate :=
  { market := c.market
    current_price := c.current_price
    ma10 := c.ma10
    acc_trade_price_24h := c.acc_trade_price_24h
    slope := c.slope
    macd_strength := c.macd_strength
    buy_price := c.buy_price
    tp1 := c.tp1
    tp2 := c.tp2
    tp3 := c.tp3
    sl := c.sl
    normalized_slope := c.slope / c.ma10 }

/-- Stable descending insertion by `acc_trade_price_24h`: an element is
inserted after every earlier element with a strictly larger key and
before the first element whose key is not larger, so equal keys keep
input order. -/
def insertDesc (x : Candidate) : List Candidate → List Candidate
  | [] => [x]
  | y :: ys =>
    if x.acc_trade_price_24h < y.acc_trade_price_24h then y :: insertDesc x ys
    else x :: y :: ys

/-- `final_list.sort(key=lambda x: x['acc_trade_price_24h'], reverse=True)`:
the stable descending sort by 24h traded value. -/
def sortDesc : List Candidate → List Candidate
  | [] => []
  | x :: xs => insertDesc x (sortDesc xs)

/-- `analyze_market`: stage-1 band filter over the universe, stage-2
per-ticker evaluation, `normalized_slope` annotation, stable descending
sort by 24h traded value, truncation to the top 5. -/
def analyze_market (src : DataSource) : List Candidate :=
  let valid_tickers := stage1Items src
  let final_list := valid_tickers.filterMap (evalTicker src)
  let annotated := final_list.map annotate
  (sortDesc annotated).take 5

/-- The full qualifying set: every stage-1 survivor that also passes
both stage-2 checks, annotated, in scan order (before ranking). -/
def qualifying (src : DataSource) : List Candidate :=
  ((stage1Items src).filterMap (evalTicker src)).map annotate

/-! ### Lemmas about the stable descending sort -/

theorem insertDesc_perm (x : Candidate) (l : List Candidate) :
    List.Perm (insertDesc x l) (x :: l) := by
  induction l with
  | nil => rfl
  | cons y ys ih =>
    by_cases h : x.acc_trade_price_24h < y.acc_trade_price_24h
    · simp only [insertDesc, if_pos h]
      exact (ih.cons y).trans (List.Perm.swap x y ys)
    · simp [insertDesc, if_neg h]

theorem sortDesc_perm (l : List Candidate) : List.Perm (sortDesc l) l := by
  induction l with
  | nil => rfl
  | cons x xs ih => exact (insertDesc_perm x (sortDesc xs)).trans (ih.cons x)

theorem insertDesc_pairwise (x : Candidate) (l : List Candidate)
    (hl : l.Pairwise (fun a b => b.acc_trade_price_24h ≤ a.acc_trade_price_24h)) :
    (insertDesc x l).Pairwise
      (fun a b => b.acc_trade_price_24h ≤ a.acc_trade_price_24h) := by
  induction l with
  | nil => simp [insertDesc]
  | cons y ys ih =>
    rcases List.pairwise_cons.mp hl with ⟨hy, hys⟩
    by_cases h : x.acc_trade_price_24h < y.acc_trade_price_24h
    · simp only [insertDesc, if_pos h]
      refine List.pairwise_cons.mpr ⟨?_, ih hys⟩
      intro z hz
      rcases List.mem_cons.mp ((insertDesc_perm x ys).mem_iff.mp hz) with rfl | hz
      · exact le_of_lt h
      · exact hy z hz
    · simp only [insertDesc, if_neg h]
      refine List.pairwise_cons.mpr ⟨?_, hl⟩
      intro z hz
      rcases List.mem_cons.mp hz with rfl | hz
      · exact le_of_not_lt h
      · exact le_trans (hy z hz) (le_of_not_lt h)

theorem sortDesc_pairwise (l : List Candidate) :
    (sortDesc l).Pairwise
      (fun a b => b.acc_trade_price_24h ≤ a.acc_trade_price_24h) := by
  induction l with
  | nil => simp [sortDesc]
  | cons x xs ih => exact insertDesc_pairwise x (sortDesc xs) ih

theorem filter_key_insertDesc (x : Candidate) (l : List Candidate) (k : ℚ) :
    (insertDesc x l).filter (fun c => decide (c.acc_trade_price_24h = k)) =
      (x :: l).filter (fun c => decide (c.acc_trade_price_24h = k)) := by
  induction l with
  | nil => rfl
  | cons y ys ih =>
    by_cases h : x.acc_trade_price_24h < y.acc_trade_price_24h
    · simp only [insertDesc, if_pos h]
      by_cases hx : x.acc_trade_price_24h = k <;>
        by_cases hy : y.acc_trade_price_24h = k
      · exact absurd (hx.trans hy.symm) (ne_of_lt h)
      · simp [List.filter_cons, hx, hy, ih]
      · simp [List.filter_cons, hx, hy, ih]
      · simp [List.filter_cons, hx, hy, ih]
    · simp [insertDesc, if_neg h]

theorem filter_key_sortDesc (l : List Candidate) (k : ℚ) :
    (sortDesc l).filter (fun c => decide (c.acc_trade_price_24h = k)) =
      l.filter (fun c => decide (c.acc_trade_price_24h = k)) := by
  induction l with
  | nil => rfl
  | cons x xs ih =>
    rw [sortDesc, filter_key_insertDesc, List.filter_cons, List.filter_cons, ih]

/-! ### C1: ranked output soundness -/

/-- C1.  For every data-source snapshot the scan's output has length
`min K 5` where `K` is the number of tickers qualifying through both
filter stages, every output member belongs to the qualifying set, and
the output is sorted in descending order of `acc_trade_price_24h`. -/
theorem scan_output_top5_sound (src : DataSource) :
    (analyze_market src).length = min (qualifying src).length 5 ∧
    (∀ c ∈ analyze_market src, c ∈ qualifying src) ∧
    (analyze_market src).Pairwise
      (fun a b => b.acc_trade_price_24h ≤ a.acc_trade_price_24h) := by
  refine ⟨?_, ?_, ?_⟩
  · show ((sortDesc (qualifying src)).take 5).length = _
    rw [List.length_take, (sortDesc_perm (qualifying src)).length_eq, Nat.min_comm]
  · intro c hc
    have h1 : c ∈ sortDesc (qualifying src) := List.mem_of_mem_take hc
    exact (sortDesc_perm (qualifying src)).mem_iff.mp h1
  · exact (sortDesc_pairwise (qualifying src)).take

/-- C1 witness: the theorem applied at a concrete (empty) data source. -/
def srcEmpty : DataSource :=
  ⟨none, fun _ => none, fun _ => none, fun _ => none⟩

theorem scan_output_top5_sound_witness :
    (analyze_market srcEmpty).length = min (qualifying srcEmpty).length 5 ∧
    (∀ c ∈ analyze_market srcEmpty, c ∈ qualifying srcEmpty) ∧
    (analyze_market srcEmpty).Pairwise
      (fun a b => b.acc_trade_price_24h ≤ a.acc_trade_price_24h) :=
  scan_output_top5_sound srcEmpty

/-! ### C3: the stage-1 volatility band -/

/-- C3.  A response item survives the stage-1 filter step iff it was in
the response and its signed 24h change rate lies in the closed band
`[-0.02, 0.02]`; the boundary rates `±0.020` are kept and `±0.021` are
dropped. -/
theorem stage1_band_closed (data : List SnapshotItem) (item : SnapshotItem) :
    (item ∈ data.filter stage1Keep ↔
      item ∈ data ∧ (-(2/100 : ℚ) ≤ item.signed_change_rate ∧
        item.signed_change_rate ≤ 2/100)) ∧
    (∀ src : DataSource, ∀ info ∈ stage1Items src,
      -(2/100 : ℚ) ≤ info.signed_change_rate ∧
        info.signed_change_rate ≤ 2/100) ∧
    stage1Keep ⟨"KRW-A", 20/1000, 0⟩ = true ∧
    stage1Keep ⟨"KRW-A", -(20/1000), 0⟩ = true ∧
    stage1Keep ⟨"KRW-A", 21/1000, 0⟩ = false ∧
    stage1Keep ⟨"KRW-A", -(21/1000), 0⟩ = false := by
  refine ⟨?_, ?_, ?_, ?_, ?_, ?_⟩
  · simp [List.mem_filter, stage1Keep]
  · intro src info hmem
    simp only [stage1Items, List.mem_flatten, List.mem_map] at hmem
    obtain ⟨sub, ⟨chunk, _, hchunk⟩, hin⟩ := hmem
    revert hchunk
    cases src.quoteBatch chunk with
    | none => intro h; rw [← h] at hin; cases hin
    | some d =>
      intro h
      rw [← h] at hin
      have := List.of_mem_filter hin
      simpa [stage1Keep] using this
  · simp [stage1Keep]; norm_num
  · simp [stage1Keep]; norm_num
  · simp [stage1Keep]; norm_num
  · simp [stage1Keep]; norm_num

theorem stage1_band_closed_witness :
    (⟨"KRW-BTC", 0, 1⟩ ∈
        ([⟨"KRW-BTC", 0, 1⟩] : List SnapshotItem).filter stage1Keep ↔
      (⟨"KRW-BTC", 0, 1⟩ : SnapshotItem) ∈ [(⟨"KRW-BTC", 0, 1⟩ : SnapshotItem)] ∧
        (-(2/100 : ℚ) ≤ (0 : ℚ) ∧ (0 : ℚ) ≤ 2/100)) ∧
    (∀ src : DataSource, ∀ info ∈ stage1Items src,
      -(2/100 : ℚ) ≤ info.signed_change_rate ∧
        info.signed_change_rate ≤ 2/100) ∧
    stage1Keep ⟨"KRW-A", 20/1000, 0⟩ = true ∧
    stage1Keep ⟨"KRW-A", -(20/1000), 0⟩ = true ∧
    stage1Keep ⟨"KRW-A", 21/1000, 0⟩ = false ∧
    stage1Keep ⟨"KRW-A", -(21/1000), 0⟩ = false :=
  stage1_band_closed [⟨"KRW-BTC", 0, 1⟩] ⟨"KRW-BTC", 0, 1⟩

/-! ### C8: determinism and stability of the ranking -/

/-- C8.  The scan is a pure function of the data-source snapshot: two
runs on equal snapshots give identical ranked output, and the ranker's
sort is stable, keeping candidates with equal 24h-traded-value keys in
input order (the sublist of any fixed key value is unchanged by the
sort). -/
theorem scan_deterministic (src₁ src₂ : DataSource) (h : src₁ = src₂) :
    analyze_market src₁ = analyze_market src₂ ∧
    (∀ (l : List Candidate) (k : ℚ),
      (sortDesc l).filter (fun c => decide (c.acc_trade_price_24h = k)) =
        l.filter (fun c => decide (c.acc_trade_price_24h = k))) :=
  ⟨h ▸ rfl, filter_key_sortDesc⟩

theorem scan_deterministic_witness :
    analyze_market srcEmpty = analyze_market srcEmpty ∧
    (∀ (l : List Candidate) (k : ℚ),
      (sortDesc l).filter (fun c => decide (c.acc_trade_price_24h = k)) =
        l.filter (fun c => decide (c.acc_trade_price_24h = k))) :=
  scan_deterministic srcEmpty srcEmpty rfl

/-! ### C6: derived trade-plan fields -/

theorem evalTicker_eq_mk (src : DataSource) (info : SnapshotItem)
    (raw : CandidateRaw) (h : evalTicker src info = some raw) :
    ∃ hd : HourlyData,
      evalHourly (get_hour_candles src info.market) = some hd ∧
      raw = mkCandidateRaw info.market info.acc_trade_price_24h
        (check_macd_golden_cross (get_day_candles src info.market)).2 hd := by
  revert h
  unfold evalTicker
  by_cases hm : (check_macd_golden_cross (get_day_candles src info.market)).1 = false
  · simp [hm]
  · simp only [hm, if_false]
    cases he : evalHourly (get_hour_candles src info.market) with
    | none => intro h; cases h
    | some hd =>
      intro h
      exact ⟨hd, rfl, (Option.some_inj.mp h).symm⟩

theorem mem_analyze_provenance (src : DataSource) (c : Candidate)
    (hc : c ∈ analyze_market src) :
    ∃ info ∈ stage1Items src, ∃ raw,
      evalTicker src info = some raw ∧ c = annotate raw := by
  have h1 : c ∈ sortDesc (qualifying src) := List.mem_of_mem_take hc
  have h2 : c ∈ qualifying src := (sortDesc_perm (qualifying src)).mem_iff.mp h1
  obtain ⟨raw, hraw, hann⟩ := List.mem_map.mp h2
  obtain ⟨info, hinfo, hsome⟩ := List.mem_filterMap.mp hraw
  exact ⟨info, hinfo, raw, hsome, hann.symm⟩

/-- C6.  Every candidate in the scan output has `buy_price` equal to the
current price, the three take-profit prices at multipliers 1.015, 1.035
and 1.070 of the current price, the stop-loss at 0.99 of the current
price, and `normalized_slope = slope / ma10`; and the candidate record
as built stores `slope` = current MA10 minus previous MA10 and `ma10` =
current MA10. -/
theorem trade_plan_fields (src : DataSource) :
    (∀ c ∈ analyze_market src,
      c.buy_price = c.current_price ∧
      c.tp1.price = c.current_price * (1015/1000) ∧
      c.tp2.price = c.current_price * (1035/1000) ∧
      c.tp3.price = c.current_price * (1070/1000) ∧
      c.sl = c.current_price * (99/100) ∧
      c.normalized_slope = c.slope / c.ma10) ∧
    (∀ (market : String) (acc strength : ℚ) (hd : HourlyData),
      (mkCandidateRaw market acc strength hd).slope = hd.currMa - hd.prevMa ∧
      (mkCandidateRaw market acc strength hd).ma10 = hd.currMa ∧
      (mkCandidateRaw market acc strength hd).current_price = hd.price) := by
  constructor
  · intro c hc
    obtain ⟨info, _, raw, hsome, hann⟩ := mem_analyze_provenance src c hc
    obtain ⟨hd, _, hmk⟩ := evalTicker_eq_mk src info raw hsome
    subst hann hmk
    simp [annotate, mkCandidateRaw]
  · intro market acc strength hd
    simp [mkCandidateRaw]

theorem trade_plan_fields_witness :
    (∀ c ∈ analyze_market srcEmpty,
      c.buy_price = c.current_price ∧
      c.tp1.price = c.current_price * (1015/1000) ∧
      c.tp2.price = c.current_price * (1035/1000) ∧
      c.tp3.price = c.current_price * (1070/1000) ∧
      c.sl = c.current_price * (99/100) ∧
      c.normalized_slope = c.slope / c.ma10) ∧
    (∀ (market : String) (acc strength : ℚ) (hd : HourlyData),
      (mkCandidateRaw market acc strength hd).slope = hd.currMa - hd.prevMa ∧
      (mkCandidateRaw market acc strength hd).ma10 = hd.currMa ∧
      (mkCandidateRaw market acc strength hd).current_price = hd.price) :=
  trade_plan_fields srcEmpty

/-! ### C7: fault tolerance -/

/-- The data source with the candle fetches of one ticker replaced by a
transient fault, everything else unchanged. -/
def faultCandles (src : DataSource) (t : String) : DataSource :=
  { src with
    dayCandles := fun u => if u = t then none else src.dayCandles u
    hourCandles := fun u => if u = t then none else src.hourCandles u }

/-- C7.  If enumeration of the ticker universe fails the scan returns
the empty list; and faulting the candle fetches of one ticker makes that
ticker evaluate to "absent" while the stage-2 result of every other
ticker is unchanged. -/
theorem scan_fault_isolation (src : DataSource) (h : src.tickersRaw = none) :
    analyze_market src = [] ∧
    (∀ (s : DataSource) (t : String) (info : SnapshotItem),
      (info.market ≠ t →
        evalTicker (faultCandles s t) info = evalTicker s info) ∧
      (info.market = t → evalTicker (faultCandles s t) info = none)) := by
  constructor
  · show (sortDesc (qualifying src)).take 5 = []
    have h0 : get_krw_tickers src = [] := by simp [get_krw_tickers, h]
    simp [qualifying, stage1Items, h0, chunksOf, sortDesc]
  · intro s t info
    constructor
    · intro hne
      simp [evalTicker, get_day_candles, get_hour_candles, faultCandles, hne]
    · intro heq
      simp [evalTicker, get_day_candles, faultCandles, heq,
        check_macd_golden_cross]

theorem scan_fault_isolation_witness :
    analyze_market srcEmpty = [] ∧
    (∀ (s : DataSource) (t : String) (info : SnapshotItem),
      (info.market ≠ t →
        evalTicker (faultCandles s t) info = evalTicker s info) ∧
      (info.market = t → evalTicker (faultCandles s t) info = none)) :=
  scan_fault_isolation srcEmpty rfl

/-! ### C4: the MACD check against the spec's EMA recursion

`specEma` is written from the spec's words (the reference recursion
`ema[0] = price[0]`, `ema[t] = price[t]*k + ema[t-1]*(1-k)`,
`k = 2/(span+1)`), to be compared with the code-side `emaFrom`/`emaSpan`
scan. -/

/-- The spec's EMA recursion at position `t` of an oldest-first series. -/
def specEma (k : ℚ) (ps : List ℚ) : Nat → ℚ
  | 0 => ps.getD 0 0
  | t + 1 => ps.getD (t + 1) 0 * k + specEma k ps t * (1 - k)

/-- The spec's MACD value: EMA12 minus EMA26 at position `t`. -/
def specMacd (ps : List ℚ) (t : Nat) : ℚ :=
  specEma (2 / (12 + 1)) ps t - specEma (2 / (26 + 1)) ps t

/-- The spec's signal line: the 9-period EMA recursion applied to the
MACD values. -/
def specSignal (ps : List ℚ) : Nat → ℚ
  | 0 => specMacd ps 0
  | t + 1 => specMacd ps (t + 1) * (2 / (9 + 1)) +
      specSignal ps t * (1 - 2 / (9 + 1))

theorem specEma_shift (k p a : ℚ) (rest : List ℚ) (t : Nat) :
    specEma k ((a * k + p * (1 - k)) :: rest) t =
      specEma k (p :: a :: rest) (t + 1) := by
  induction t with
  | zero => simp [specEma]
  | succ t ih => simp only [specEma, List.getD_cons_succ, ih]

theorem scanl_getD_specEma (k : ℚ) (rest : List ℚ) (p : ℚ) (t : Nat)
    (ht : t < rest.length + 1) :
    (rest.scanl (fun prev x => x * k + prev * (1 - k)) p).getD t 0 =
      specEma k (p :: rest) t := by
  induction rest generalizing p t with
  | nil =>
    cases t with
    | zero => simp [List.scanl, specEma]
    | succ t => exact absurd ht (by simp)
  | cons a rest ih =>
    cases t with
    | zero => simp [List.scanl, specEma]
    | succ t =>
      have ht' : t < rest.length + 1 := by
        simpa [Nat.succ_lt_succ_iff] using ht
      calc ((a :: rest).scanl (fun prev x => x * k + prev * (1 - k)) p).getD
              (t + 1) 0
          = (rest.scanl (fun prev x => x * k + prev * (1 - k))
              (a * k + p * (1 - k))).getD t 0 := by
            simp [List.scanl]
        _ = specEma k ((a * k + p * (1 - k)) :: rest) t := ih _ t ht'
        _ = specEma k (p :: a :: rest) (t + 1) := specEma_shift k p a rest t

theorem emaFrom_length (k : ℚ) (ps : List ℚ) :
    (emaFrom k ps).length = ps.length := by
  cases ps with
  | nil => rfl
  | cons p rest => simp [emaFrom, List.length_scanl]

theorem emaFrom_getD (k : ℚ) (ps : List ℚ) (t : Nat) (ht : t < ps.length) :
    (emaFrom k ps).getD t 0 = specEma k ps t := by
  cases ps with
  | nil => cases ht
  | cons p rest => exact scanl_getD_specEma k rest p t (by simpa using ht)

theorem macd_line_length (ps : List ℚ) :
    (calculate_macd ps).1.length = ps.length := by
  simp [calculate_macd, List.length_zipWith, emaFrom_length, emaSpan]

theorem signal_line_length (ps : List ℚ) :
    (calculate_macd ps).2.1.length = ps.length := by
  simp only [calculate_macd]
  rw [emaSpan, emaFrom_length, List.length_zipWith,
    emaSpan, emaSpan, emaFrom_length, emaFrom_length, Nat.min_self]

theorem macd_line_getD (ps : List ℚ) (t : Nat) (ht : t < ps.length) :
    (calculate_macd ps).1.getD t 0 = specMacd ps t := by
  have h12 : t < (emaSpan 12 ps).length := by rw [emaSpan, emaFrom_length]; exact ht
  have h26 : t < (emaSpan 26 ps).length := by rw [emaSpan, emaFrom_length]; exact ht
  have hz : t < (List.zipWith (· - ·) (emaSpan 12 ps) (emaSpan 26 ps)).length := by
    rw [List.length_zipWith]; omega
  simp only [calculate_macd]
  rw [List.getD_eq_getElem _ _ hz, List.getElem_zipWith,
    ← List.getD_eq_getElem _ 0 h12, ← List.getD_eq_getElem _ 0 h26,
    emaSpan, emaSpan, emaFrom_getD _ _ _ ht, emaFrom_getD _ _ _ ht, specMacd]
  norm_num

theorem specEma_macd_eq_specSignal (ps : List ℚ) (t : Nat)
    (ht : t < ps.length) :
    specEma (2 / (9 + 1)) (calculate_macd ps).1 t = specSignal ps t := by
  induction t with
  | zero =>
    simp only [specEma, specSignal]
    exact macd_line_getD ps 0 (by omega)
  | succ t ih =>
    simp only [specEma, specSignal, ih (by omega : t < ps.length)]
    rw [macd_line_getD ps (t + 1) ht]

theorem signal_line_getD (ps : List ℚ) (t : Nat) (ht : t < ps.length) :
    (calculate_macd ps).2.1.getD t 0 = specSignal ps t := by
  have hm : t < (calculate_macd ps).1.length := by rw [macd_line_length]; exact ht
  have hk : (2 : ℚ) / (((9 : ℕ) : ℚ) + 1) = 2 / (9 + 1) := by norm_num
  show (emaSpan 9 (calculate_macd ps).1).getD t 0 = _
  rw [emaSpan, hk, emaFrom_getD _ _ _ hm]
  exact specEma_macd_eq_specSignal ps t ht

/-- C4.  On every daily series accepted by the MACD check (at least 30
candles reach the indicator), the check passes iff the golden-cross or
the sustained-strength condition holds for the MACD/signal values given
by the spec's seeded EMA recursion over the oldest-first series, and on
a pass the recorded strength is current MACD minus current signal. -/
theorem macd_check_matches_spec (candles : List ℚ)
    (h30 : 30 ≤ candles.length) :
    ((check_macd_golden_cross candles).1 = true ↔
      ((specMacd candles.reverse (candles.length - 2) ≤
          specSignal candles.reverse (candles.length - 2) ∧
        specSignal candles.reverse (candles.length - 1) <
          specMacd candles.reverse (candles.length - 1)) ∨
       (specSignal candles.reverse (candles.length - 1) <
          specMacd candles.reverse (candles.length - 1) ∧
        specMacd candles.reverse (candles.length - 2) <
          specMacd candles.reverse (candles.length - 1)))) ∧
    ((check_macd_golden_cross candles).1 = true →
      (check_macd_golden_cross candles).2 =
        specMacd candles.reverse (candles.length - 1) -
          specSignal candles.reverse (candles.length - 1)) := by
  have hne : candles.isEmpty = false := by
    cases candles with
    | nil => simp at h30
    | cons a l => rfl
  have hlt : decide (candles.length < 30) = false := by
    simp only [decide_eq_false_iff_not, not_lt]; exact h30
  have hrl : candles.reverse.length = candles.length := candles.length_reverse
  have hml : (calculate_macd candles.reverse).1.length = candles.length := by
    rw [macd_line_length, hrl]
  have hsl : (calculate_macd candles.reverse).2.1.length = candles.length := by
    rw [signal_line_length, hrl]
  have h1 : candles.length - 1 < candles.reverse.length := by rw [hrl]; omega
  have h2 : candles.length - 2 < candles.reverse.length := by rw [hrl]; omega
  have hLm : lastD (calculate_macd candles.reverse).1 =
      specMacd candles.reverse (candles.length - 1) := by
    rw [lastD, hml]; exact macd_line_getD _ _ h1
  have hPm : prevD (calculate_macd candles.reverse).1 =
      specMacd candles.reverse (candles.length - 2) := by
    rw [prevD, hml]; exact macd_line_getD _ _ h2
  have hLs : lastD (calculate_macd candles.reverse).2.1 =
      specSignal candles.reverse (candles.length - 1) := by
    rw [lastD, hsl]; exact signal_line_getD _ _ h1
  have hPs : prevD (calculate_macd candles.reverse).2.1 =
      specSignal candles.reverse (candles.length - 2) := by
    rw [prevD, hsl]; exact signal_line_getD _ _ h2
  have hPQ :
      ((prevD (calculate_macd candles.reverse).1 ≤
          prevD (calculate_macd candles.reverse).2.1 ∧
        lastD (calculate_macd candles.reverse).1 >
          lastD (calculate_macd candles.reverse).2.1) ∨
       (lastD (calculate_macd candles.reverse).1 >
          lastD (calculate_macd candles.reverse).2.1 ∧
        lastD (calculate_macd candles.reverse).1 >
          prevD (calculate_macd candles.reverse).1)) ↔
      ((specMacd candles.reverse (candles.length - 2) ≤
          specSignal candles.reverse (candles.length - 2) ∧
        specSignal candles.reverse (candles.length - 1) <
          specMacd candles.reverse (candles.length - 1)) ∨
       (specSignal candles.reverse (candles.length - 1) <
          specMacd candles.reverse (candles.length - 1) ∧
        specMacd candles.reverse (candles.length - 2) <
          specMacd candles.reverse (candles.length - 1))) := by
    rw [hLm, hPm, hLs, hPs]
  have hunfold : check_macd_golden_cross candles =
      if ((prevD (calculate_macd candles.reverse).1 ≤
            prevD (calculate_macd candles.reverse).2.1 ∧
          lastD (calculate_macd candles.reverse).1 >
            lastD (calculate_macd candles.reverse).2.1) ∨
         (lastD (calculate_macd candles.reverse).1 >
            lastD (calculate_macd candles.reverse).2.1 ∧
          lastD (calculate_macd candles.reverse).1 >
            prevD (calculate_macd candles.reverse).1)) then
        (true, lastD (calculate_macd candles.reverse).1 -
          lastD (calculate_macd candles.reverse).2.1)
      else (false, 0) := by
    simp only [check_macd_golden_cross, hne, hlt, Bool.or_self,
      Bool.false_or, Bool.false_eq_true, if_false]
  constructor
  · rw [hunfold]
    by_cases hP :
        ((prevD (calculate_macd candles.reverse).1 ≤
            prevD (calculate_macd candles.reverse).2.1 ∧
          lastD (calculate_macd candles.reverse).1 >
            lastD (calculate_macd candles.reverse).2.1) ∨
         (lastD (calculate_macd candles.reverse).1 >
            lastD (calculate_macd candles.reverse).2.1 ∧
          lastD (calculate_macd candles.reverse).1 >
            prevD (calculate_macd candles.reverse).1))
    · rw [if_pos hP]
      exact iff_of_true rfl (hPQ.mp hP)
    · rw [if_neg hP]
      exact iff_of_false (by simp) (fun hQ => hP (hPQ.mpr hQ))
  · rw [hunfold]
    by_cases hP :
        ((prevD (calculate_macd candles.reverse).1 ≤
            prevD (calculate_macd candles.reverse).2.1 ∧
          lastD (calculate_macd candles.reverse).1 >
            lastD (calculate_macd candles.reverse).2.1) ∨
         (lastD (calculate_macd candles.reverse).1 >
            lastD (calculate_macd candles.reverse).2.1 ∧
          lastD (calculate_macd candles.reverse).1 >
            prevD (calculate_macd candles.reverse).1))
    · rw [if_pos hP]
      intro _
      show lastD (calculate_macd candles.reverse).1 -
          lastD (calculate_macd candles.reverse).2.1 = _
      rw [hLm, hLs]
    · rw [if_neg hP]
      intro h
      exact absurd h (by simp)

/-- A 30-candle daily series (newest first) whose oldest-first prices
rise linearly from 1 to 30. -/
def dailyEx : List ℚ := (List.range 30).map (fun i => ((30 - i : Nat) : ℚ))

theorem macd_check_matches_spec_witness :
    30 ≤ dailyEx.length ∧
    (((check_macd_golden_cross dailyEx).1 = true ↔
      ((specMacd dailyEx.reverse (dailyEx.length - 2) ≤
          specSignal dailyEx.reverse (dailyEx.length - 2) ∧
        specSignal dailyEx.reverse (dailyEx.length - 1) <
          specMacd dailyEx.reverse (dailyEx.length - 1)) ∨
       (specSignal dailyEx.reverse (dailyEx.length - 1) <
          specMacd dailyEx.reverse (dailyEx.length - 1) ∧
        specMacd dailyEx.reverse (dailyEx.length - 2) <
          specMacd dailyEx.reverse (dailyEx.length - 1)))) ∧
    ((check_macd_golden_cross dailyEx).1 = true →
      (check_macd_golden_cross dailyEx).2 =
        specMacd dailyEx.reverse (dailyEx.length - 1) -
          specSignal dailyEx.reverse (dailyEx.length - 1))) :=
  ⟨by simp [dailyEx], macd_check_matches_spec dailyEx (by simp [dailyEx])⟩

/-! ### C5 and C10: the hourly MA10 trend check -/

theorem rollingMean_length (w : Nat) (ps : List ℚ) :
    (rollingMean w ps).length = ps.length := by
  simp [rollingMean]

theorem rollingMean_getD (w : Nat) (ps : List ℚ) (i : Nat)
    (hi : i < ps.length) :
    (rollingMean w ps).getD i none =
      if i + 1 < w then none
      else some ((((ps.drop (i + 1 - w)).take w).sum) / (w : ℚ)) := by
  have h : i < (rollingMean w ps).length := by
    rw [rollingMean_length]; exact hi
  rw [List.getD_eq_getElem _ _ h]
  simp [rollingMean]

theorem evalHourly_guard_eq (candles : List ℚ) (h12 : 12 ≤ candles.length) :
    (candles.isEmpty || decide (candles.length < 12)) = false := by
  cases candles with
  | nil => simp at h12
  | cons a l =>
    simp only [List.isEmpty_cons, Bool.false_or, decide_eq_false_iff_not,
      not_lt]
    exact h12

/-- C5.  MA10 over an oldest-first series is undefined (`none`) exactly
before the 10th sample and otherwise is the arithmetic mean of the
trailing 10 prices; the trend check of the hourly block passes iff the
current MA10 strictly exceeds the previous one, and it rejects the
ticker whenever either of the two MA10 values is undefined. -/
theorem ma10_trend_spec (ps : List ℚ) (i : Nat) (hi : i < ps.length) :
    ((rollingMean 10 ps).getD i none = none ↔ i < 9) ∧
    (9 ≤ i → ∃ w pre : List ℚ, w.length = 10 ∧ pre ++ w = ps.take (i + 1) ∧
      (rollingMean 10 ps).getD i none = some (w.sum / (10 : ℚ))) ∧
    (∀ (candles : List ℚ) (c p : ℚ), 12 ≤ candles.length →
      (rollingMean 10 candles.reverse).getD
        ((rollingMean 10 candles.reverse).length - 1) none = some c →
      (rollingMean 10 candles.reverse).getD
        ((rollingMean 10 candles.reverse).length - 2) none = some p →
      ((evalHourly candles).isSome = true ↔ p < c)) ∧
    (∀ candles : List ℚ,
      ((rollingMean 10 candles.reverse).getD
          ((rollingMean 10 candles.reverse).length - 1) none = none ∨
       (rollingMean 10 candles.reverse).getD
          ((rollingMean 10 candles.reverse).length - 2) none = none) →
      evalHourly candles = none) := by
  refine ⟨?_, ?_, ?_, ?_⟩
  · rw [rollingMean_getD 10 ps i hi]
    split_ifs with h
    · simp only [true_iff]; omega
    · simp only [reduceCtorEq, false_iff]; omega
  · intro h9
    refine ⟨(ps.drop (i + 1 - 10)).take 10, ps.take (i + 1 - 10), ?_, ?_, ?_⟩
    · rw [List.length_take, List.length_drop]
      omega
    · rw [← List.take_add]
      congr 1
      omega
    · rw [rollingMean_getD 10 ps i hi, if_neg (by omega)]
      norm_num
  · intro candles c p h12 hc hp
    have hg := evalHourly_guard_eq candles h12
    simp only [evalHourly, hg, Bool.false_eq_true, if_false]
    rw [hc, hp]
    by_cases hcp : c > p
    · simp [hcp]
    · simp [hcp]
  · intro candles hnone
    by_cases hg : (candles.isEmpty || decide (candles.length < 12)) = true
    · simp [evalHourly, hg]
    · simp only [Bool.not_eq_true] at hg
      simp only [evalHourly, hg, Bool.false_eq_true, if_false]
      rcases hnone with h | h
      · rw [h]
      · cases hfst : (rollingMean 10 candles.reverse).getD
            ((rollingMean 10 candles.reverse).length - 1) none with
        | none => rfl
        | some c => rw [h]

theorem ma10_trend_spec_witness :
    (((rollingMean 10 [(0 : ℚ)]).getD 0 none = none ↔ 0 < 9) ∧
    (9 ≤ 0 → ∃ w pre : List ℚ, w.length = 10 ∧
      pre ++ w = [(0 : ℚ)].take (0 + 1) ∧
      (rollingMean 10 [(0 : ℚ)]).getD 0 none = some (w.sum / (10 : ℚ))) ∧
    (∀ (candles : List ℚ) (c p : ℚ), 12 ≤ candles.length →
      (rollingMean 10 candles.reverse).getD
        ((rollingMean 10 candles.reverse).length - 1) none = some c →
      (rollingMean 10 candles.reverse).getD
        ((rollingMean 10 candles.reverse).length - 2) none = some p →
      ((evalHourly candles).isSome = true ↔ p < c)) ∧
    (∀ candles : List ℚ,
      ((rollingMean 10 candles.reverse).getD
          ((rollingMean 10 candles.reverse).length - 1) none = none ∨
       (rollingMean 10 candles.reverse).getD
          ((rollingMean 10 candles.reverse).length - 2) none = none) →
      evalHourly candles = none)) :=
  ma10_trend_spec [(0 : ℚ)] 0 (by simp)

/-- C10.  Any hourly series passing the length guard (at least 12
candles) has both the current and the previous MA10 defined, so the
NaN-rejection branch cannot fire: a rejection can only come from the
trend comparison. -/
theorem ma10_defined_after_guard (candles : List ℚ)
    (h12 : 12 ≤ candles.length) :
    ((rollingMean 10 candles.reverse).getD
        ((rollingMean 10 candles.reverse).length - 1) none).isSome = true ∧
    ((rollingMean 10 candles.reverse).getD
        ((rollingMean 10 candles.reverse).length - 2) none).isSome = true ∧
    (evalHourly candles = none → ∃ c p : ℚ,
      (rollingMean 10 candles.reverse).getD
        ((rollingMean 10 candles.reverse).length - 1) none = some c ∧
      (rollingMean 10 candles.reverse).getD
        ((rollingMean 10 candles.reverse).length - 2) none = some p ∧
      ¬ p < c) := by
  have hrl : candles.reverse.length = candles.length := candles.length_reverse
  have hml : (rollingMean 10 candles.reverse).length = candles.length := by
    rw [rollingMean_length, hrl]
  have hi1 : candles.length - 1 < candles.reverse.length := by rw [hrl]; omega
  have hi2 : candles.length - 2 < candles.reverse.length := by rw [hrl]; omega
  have hc1 : ((rollingMean 10 candles.reverse).getD
      ((rollingMean 10 candles.reverse).length - 1) none).isSome = true := by
    rw [hml, rollingMean_getD 10 _ _ hi1, if_neg (by omega)]
    rfl
  have hc2 : ((rollingMean 10 candles.reverse).getD
      ((rollingMean 10 candles.reverse).length - 2) none).isSome = true := by
    rw [hml, rollingMean_getD 10 _ _ hi2, if_neg (by omega)]
    rfl
  refine ⟨hc1, hc2, ?_⟩
  intro hnone
  obtain ⟨c, hc⟩ := Option.isSome_iff_exists.mp hc1
  obtain ⟨p, hp⟩ := Option.isSome_iff_exists.mp hc2
  refine ⟨c, p, hc, hp, ?_⟩
  have hg := evalHourly_guard_eq candles h12
  simp only [evalHourly, hg, Bool.false_eq_true, if_false] at hnone
  rw [hc, hp] at hnone
  by_cases hcp : c > p
  · simp [hcp] at hnone
  · exact hcp

/-- A 12-candle hourly series (newest first) whose oldest-first prices
rise linearly from 1 to 12. -/
def hourlyEx : List ℚ := (List.range 12).map (fun i => ((12 - i : Nat) : ℚ))

theorem ma10_defined_after_guard_witness :
    12 ≤ hourlyEx.length ∧
    (((rollingMean 10 hourlyEx.reverse).getD
        ((rollingMean 10 hourlyEx.reverse).length - 1) none).isSome = true ∧
    ((rollingMean 10 hourlyEx.reverse).getD
        ((rollingMean 10 hourlyEx.reverse).length - 2) none).isSome = true ∧
    (evalHourly hourlyEx = none → ∃ c p : ℚ,
      (rollingMean 10 hourlyEx.reverse).getD
        ((rollingMean 10 hourlyEx.reverse).length - 1) none = some c ∧
      (rollingMean 10 hourlyEx.reverse).getD
        ((rollingMean 10 hourlyEx.reverse).length - 2) none = some p ∧
      ¬ p < c)) :=
  ⟨by simp [hourlyEx], ma10_defined_after_guard hourlyEx (by simp [hourlyEx])⟩

/-! ### C2: the insufficient-data thresholds

The claim's thresholds (fewer than 50 daily candles, fewer than 20
hourly candles) do not match the code, which guards with
`len(candles) < 30` for the daily MACD check and `len(candles_1h) < 12`
for the hourly MA10 block: a 30-candle daily series and a 12-candle
hourly series are accepted and can qualify. -/

/-- C2 counterexample: a daily series with 30 (< 50) candles passes the
MACD check, and an hourly series with 12 (< 20) candles passes the MA10
block, so neither is treated as "insufficient data". -/
theorem insufficient_data_claim_cx :
    dailyEx.length < 50 ∧ (check_macd_golden_cross dailyEx).1 = true ∧
    hourlyEx.length < 20 ∧ (evalHourly hourlyEx).isSome = true := by
  refine ⟨by simp [dailyEx], ?_, by simp [hourlyEx], ?_⟩
  · norm_num [dailyEx, check_macd_golden_cross, calculate_macd, emaSpan,
      emaFrom, Coin.lastD, Coin.prevD, List.getD, List.range_succ, List.scanl]
  · norm_num [hourlyEx, evalHourly, rollingMean, Coin.lastD, List.getD,
      List.range_succ]

/-- C2 as amended: with the thresholds the code actually uses (fewer
than 30 daily candles, fewer than 12 hourly candles, a missing fetch
giving the empty list), the check signals insufficient data and the
ticker does not qualify, with no fault raised. -/
theorem insufficient_data_amended (dc hc : List ℚ) (src : DataSource)
    (info : SnapshotItem) :
    (dc.length < 30 → check_macd_golden_cross dc = (false, 0)) ∧
    (hc.length < 12 → evalHourly hc = none) ∧
    ((get_day_candles src info.market).length < 30 →
      evalTicker src info = none) ∧
    ((get_hour_candles src info.market).length < 12 →
      evalTicker src info = none) := by
  have hday : ∀ l : List ℚ, l.length < 30 →
      check_macd_golden_cross l = (false, 0) := by
    intro l hl
    simp [check_macd_golden_cross, hl]
  have hhour : ∀ l : List ℚ, l.length < 12 → evalHourly l = none := by
    intro l hl
    simp [evalHourly, hl]
  refine ⟨hday dc, hhour hc, ?_, ?_⟩
  · intro hl
    simp [evalTicker, hday _ hl]
  · intro hl
    unfold evalTicker
    by_cases hm : (check_macd_golden_cross
        (get_day_candles src info.market)).1 = false
    · simp [hm]
    · simp [hm, hhour _ hl]

theorem insufficient_data_amended_witness :
    (([] : List ℚ).length < 30 →
      check_macd_golden_cross [] = (false, 0)) ∧
    (([] : List ℚ).length < 12 → evalHourly [] = none) ∧
    ((get_day_candles srcEmpty "KRW-BTC").length < 30 →
      evalTicker srcEmpty ⟨"KRW-BTC", 0, 0⟩ = none) ∧
    ((get_hour_candles srcEmpty "KRW-BTC").length < 12 →
      evalTicker srcEmpty ⟨"KRW-BTC", 0, 0⟩ = none) :=
  insufficient_data_amended [] [] srcEmpty ⟨"KRW-BTC", 0, 0⟩

end Coin
